import Mathlib

/-!
Verification of the DOM-to-design-model capture server.

This file gives a shallow embedding of the Python sources `server.py`,
`server_enhanced.py` and `main.py` (the entry point `main.py` serves the
Flask app of `server_enhanced.py`).  Pure helper functions become Lean
functions on `String`/`List Char`; CSS numbers are modelled as `ℚ`
(Python floats arising here come from parsing short decimal literals, all
exactly representable); code that can raise an exception returns `Option`
or `Except`.  Regular-expression matching in the source is embedded as
explicit character-list scanners that implement the semantics of the
concrete patterns used (all of which are deterministic: every greedy
sub-match is over a character class disjoint from the character that must
follow, so no backtracking can occur).
-/

unseal Rat.mul Rat.inv Rat.add Rat.sub Rat.ofScientific

/-! ## Generic character and string helpers -/

/-- Numeric value of a decimal digit character. -/
def charDigitVal (c : Char) : Nat := c.toNat - 48

/-- Split a character list into its maximal leading run of decimal digits
and the remainder (the semantics of a greedy regex sub-match over the class
of decimal digits). -/
def takeDigits : List Char → List Char × List Char
  | [] => ([], [])
  | c :: cs =>
    if c.isDigit then
      let r := takeDigits cs
      (c :: r.1, r.2)
    else ([], c :: cs)

/-- Value of a most-significant-first decimal digit string. -/
def digitsToNat (ds : List Char) : Nat :=
  ds.foldl (fun a c => 10 * a + charDigitVal c) 0

/-- Maximal leading run of characters that are decimal digits or a dot
(the character class of the alpha group in the rgba regex). -/
def takeDigitsDots : List Char → List Char × List Char
  | [] => ([], [])
  | c :: cs =>
    if c.isDigit ∨ c = '.' then
      let r := takeDigitsDots cs
      (c :: r.1, r.2)
    else ([], c :: cs)

/-- Drop leading whitespace characters, the semantics of a greedy
whitespace regex sub-match. -/
def skipWs : List Char → List Char
  | [] => []
  | c :: cs => if c.isWhitespace then skipWs cs else c :: cs

/-- Strip leading and trailing whitespace from a character list, the
semantics of a no-argument Python string strip. -/
def stripChars (cs : List Char) : List Char :=
  ((cs.dropWhile Char.isWhitespace).reverse.dropWhile Char.isWhitespace).reverse

/-- Strip leading and trailing whitespace from a string. -/
def pyStrip (s : String) : String := String.mk (stripChars s.data)

/-- Split a character list at every occurrence of a separator character
(adjacent separators give empty parts, as in a Python split with an
explicit separator). -/
def splitOnCharAux (sep : Char) (acc : List Char) : List Char → List (List Char)
  | [] => [acc.reverse]
  | c :: cs =>
    if c = sep then acc.reverse :: splitOnCharAux sep [] cs
    else splitOnCharAux sep (c :: acc) cs

/-- Split a string at every occurrence of a separator character. -/
def splitOnChar (s : String) (sep : Char) : List String :=
  (splitOnCharAux sep [] s.data).map String.mk

/-- Split a string at the first occurrence of a separator character,
returning the parts before and after it; `none` when the separator does
not occur.  This is the semantics of a Python one-shot split. -/
def splitFirstAux (sep : Char) (acc : List Char) : List Char → Option (String × String)
  | [] => none
  | c :: cs =>
    if c = sep then some (String.mk acc.reverse, String.mk cs)
    else splitFirstAux sep (c :: acc) cs

/-- Split a string at the first occurrence of a separator character. -/
def splitFirst (s : String) (sep : Char) : Option (String × String) :=
  splitFirstAux sep [] s.data

/-- Split a character list on runs of whitespace, keeping only nonempty
parts: the word variant used below. -/
def wordsAux (acc : List Char) : List Char → List (List Char)
  | [] => if acc = [] then [] else [acc.reverse]
  | c :: cs =>
    if c.isWhitespace then
      if acc = [] then wordsAux [] cs else acc.reverse :: wordsAux [] cs
    else wordsAux (c :: acc) cs

/-- Whitespace word split: split on runs of whitespace dropping empties,
the semantics of a no-argument Python string split. -/
def pyWords (s : String) : List String :=
  (wordsAux [] s.data).map String.mk

/-- Join strings with a separator between them. -/
def joinWith (sep : String) : List String → String
  | [] => ""
  | [x] => x
  | x :: xs => x ++ sep ++ joinWith sep xs

/-- Uppercase every character, the semantics of a Python string upper. -/
def pyUpper (s : String) : String := String.mk (s.data.map Char.toUpper)

/-- Lowercase every character, the semantics of a Python string lower. -/
def pyLower (s : String) : String := String.mk (s.data.map Char.toLower)

/-- First `n` characters, the semantics of a Python slice from the start. -/
def pyTake (s : String) (n : Nat) : String := String.mk (s.data.take n)

/-- Association-list update with Python dict assignment semantics:
overwrite the binding in place when the key is present, append otherwise. -/
def assocSet {α : Type} : List (String × α) → String → α → List (String × α)
  | [], k, v => [(k, v)]
  | (k', v') :: rest, k, v =>
    if k' = k then (k, v) :: rest else (k', v') :: assocSet rest k v

/-- Association-list lookup, the semantics of a Python dict `get`. -/
def assocGet {α : Type} : List (String × α) → String → Option α
  | [], _ => none
  | (k', v) :: rest, k => if k' = k then some v else assocGet rest k

/-- Association-list lookup with a default value. -/
def assocGetD {α : Type} (m : List (String × α)) (k : String) (d : α) : α :=
  (assocGet m k).getD d

/-! ## The parsed HTML tree

The HTML parsing library is an external collaborator; its navigable parse
tree is embedded as a tree of named elements with attribute bags and
interleaved text nodes.  Both traversals of the repository consume exactly
this interface (tag name, attributes, children, text). -/

/-- A node of the parsed HTML tree: an element with tag name, attributes
and children, or a bare text node. -/
inductive HtmlNode where
  | elem (name : String) (attrs : List (String × String)) (children : List HtmlNode)
  | text (s : String)

/-- Number of children of a node (text nodes included, as in the parse
tree's child list). -/
def HtmlNode.childCount : HtmlNode → Nat
  | .text _ => 0
  | .elem _ _ cs => cs.length

mutual

/-- All descendant text-node strings of a node, in document order. -/
def allStrings : HtmlNode → List String
  | .text s => [s]
  | .elem _ _ cs => allStringsList cs

/-- All descendant text-node strings of a node list, in document order. -/
def allStringsList : List HtmlNode → List String
  | [] => []
  | c :: cs => allStrings c ++ allStringsList cs

end

/-- Concatenation of all stripped descendant strings, empties dropped:
the semantics of the parse-tree text accessor with stripping enabled. -/
def getTextStrip (n : HtmlNode) : String :=
  String.mk ((((allStrings n).map (fun s => stripChars s.data)).filter
    (fun cs => cs ≠ [])).flatten)

mutual

/-- Whether a node or one of its descendants is an `img` element. -/
def hasImgSelf : HtmlNode → Bool
  | .text _ => false
  | .elem name _ cs => if name = "img" then true else hasImgList cs

/-- Whether any node of a list, or a descendant of one, is an `img` element. -/
def hasImgList : List HtmlNode → Bool
  | [] => false
  | c :: cs => if hasImgSelf c then true else hasImgList cs

end

/-- Whether an `img` element occurs strictly below a node: the semantics
of the parse tree's descendant search for the `img` tag. -/
def hasImgDescendant : HtmlNode → Bool
  | .text _ => false
  | .elem _ _ cs => hasImgList cs

mutual

/-- First element named `body` in the tree (pre-order, self included). -/
def findBodySelf : HtmlNode → Option HtmlNode
  | .text _ => none
  | .elem name attrs cs =>
    if name = "body" then some (.elem name attrs cs) else findBodyList cs

/-- First element named `body` in a node list (pre-order). -/
def findBodyList : List HtmlNode → Option HtmlNode
  | [] => none
  | c :: cs =>
    match findBodySelf c with
    | some b => some b
    | none => findBodyList cs

end

/-- The `body` element of a document, or the whole document when there is
none: both servers start their traversal at this node. -/
def findBody (doc : HtmlNode) : HtmlNode := (findBodySelf doc).getD doc

/-- Class attribute joined to a single space-separated string.  The parse
tree exposes the multi-valued class attribute as its whitespace-split word
list; both record builders join that list with single spaces. -/
def classNameOf (attrs : List (String × String)) : String :=
  joinWith " " (pyWords (assocGetD attrs "class" ""))

namespace ServerEnhanced

/-! ## StyleValue parsers of `server_enhanced.py` -/

/-- Leftmost match of the unsigned decimal-number pattern (digits with an
optional dot-digits fraction): scan to the first digit, take the maximal
digit run, then a fraction only when a dot followed by at least one digit
is present.  A leading minus sign is not part of the pattern. -/
def scanNumber : List Char → Option ℚ
  | [] => none
  | c :: cs =>
    if c.isDigit then
      let (ds, rest1) := takeDigits (c :: cs)
      match rest1 with
      | '.' :: cs2 =>
        let (fs, _) := takeDigits cs2
        if fs = [] then some (digitsToNat ds)
        else some ((digitsToNat ds : ℚ) + (digitsToNat fs : ℚ) / (10 : ℚ) ^ fs.length)
      | _ => some (digitsToNat ds)
    else scanNumber cs

/-- CSS length parser `parse_pixel_value` of `server_enhanced.py` (string
argument; the numeric pass-through branch of the source is outside the
string domain): empty and `auto` give 0, otherwise the first unsigned
decimal number found anywhere in the string, and 0 when there is none. -/
def parse_pixel_value (value : String) : ℚ :=
  if value = "" ∨ value = "auto" then 0
  else
    match scanNumber value.data with
    | some q => q
    | none => 0

/-- An RGB colour with rational channels, the shape returned by the strict
colour parser. -/
structure RGBColor where
  r : ℚ
  g : ℚ
  b : ℚ
deriving DecidableEq

/-- Anchored match of the rgb/rgba body after the opening parenthesis:
digits, comma, optional whitespace, digits, comma, optional whitespace,
digits, then either the closing parenthesis or a comma, optional
whitespace and a nonempty digits-and-dots alpha group before it. -/
def rgbAfterParen (cs : List Char) : Option (Nat × Nat × Nat) :=
  let p1 := takeDigits cs
  if p1.1 = [] then none
  else
    match p1.2 with
    | ',' :: r2 =>
      let p2 := takeDigits (skipWs r2)
      if p2.1 = [] then none
      else
        match p2.2 with
        | ',' :: r4 =>
          let p3 := takeDigits (skipWs r4)
          if p3.1 = [] then none
          else
            match p3.2 with
            | ')' :: _ => some (digitsToNat p1.1, digitsToNat p2.1, digitsToNat p3.1)
            | ',' :: r6 =>
              let pa := takeDigitsDots (skipWs r6)
              if pa.1 = [] then none
              else
                match pa.2 with
                | ')' :: _ => some (digitsToNat p1.1, digitsToNat p2.1, digitsToNat p3.1)
                | _ => none
            | _ => none
        | _ => none
    | _ => none

/-- Anchored prefix match of the rgb/rgba pattern used by `parse_color`. -/
def rgbMatch : List Char → Option (Nat × Nat × Nat)
  | 'r' :: 'g' :: 'b' :: 'a' :: '(' :: rest => rgbAfterParen rest
  | 'r' :: 'g' :: 'b' :: '(' :: rest => rgbAfterParen rest
  | _ => none

/-- Whether a character is a hexadecimal digit in either case. -/
def isHexChar (c : Char) : Bool :=
  c.isDigit ∨ ('a' ≤ c ∧ c ≤ 'f') ∨ ('A' ≤ c ∧ c ≤ 'F')

/-- Numeric value of a hexadecimal digit character in either case. -/
def hexVal (c : Char) : Nat :=
  if c.isDigit then c.toNat - 48
  else if 'a' ≤ c then c.toNat - 87
  else c.toNat - 55

/-- Anchored prefix match of the six-hex-digit hash pattern used by
`parse_color` (case-insensitive; trailing characters are ignored). -/
def hexMatch : List Char → Option (Nat × Nat × Nat)
  | '#' :: c1 :: c2 :: c3 :: c4 :: c5 :: c6 :: _ =>
    if isHexChar c1 ∧ isHexChar c2 ∧ isHexChar c3 ∧ isHexChar c4 ∧ isHexChar c5 ∧ isHexChar c6 then
      some (16 * hexVal c1 + hexVal c2, 16 * hexVal c3 + hexVal c4, 16 * hexVal c5 + hexVal c6)
    else none
  | _ => none

/-- Strict colour parser `parse_color` of `server_enhanced.py`: `none` for
the empty string and for the literal fully-transparent rgba string, an
rgb/rgba prefix match with each parsed integer channel divided by 255,
then a six-hex-digit hash prefix match, and `none` otherwise. -/
def parse_color (color_str : String) : Option RGBColor :=
  if color_str = "" ∨ color_str = "rgba(0, 0, 0, 0)" then none
  else
    match rgbMatch color_str.data with
    | some (r, g, b) => some ⟨(r : ℚ) / 255, (g : ℚ) / 255, (b : ℚ) / 255⟩
    | none =>
      match hexMatch color_str.data with
      | some (r, g, b) => some ⟨(r : ℚ) / 255, (g : ℚ) / 255, (b : ℚ) / 255⟩
      | none => none

end ServerEnhanced

/-! ## Python float conversion

The rectangle mapper calls the Python float constructor on the raw opacity
string; that constructor raises on a string that is not a decimal float
literal.  The embedding returns `none` exactly on the raising inputs
(finite decimal forms with optional sign, fraction and exponent; the
special infinity and not-a-number words and digit-group underscores are
outside the value domain of `ℚ` and of every input considered here). -/

/-- Optional leading sign: the sign as a rational factor and the rest. -/
def readSign : List Char → ℚ × List Char
  | '-' :: cs => (-1, cs)
  | '+' :: cs => (1, cs)
  | cs => (1, cs)

/-- Parse a complete decimal float literal (after stripping); `none` when
the characters are not exactly one literal, modelling a raised error. -/
def parseFloatChars (cs : List Char) : Option ℚ :=
  let s1 := readSign cs
  let ip := takeDigits s1.2
  let fp :=
    match ip.2 with
    | '.' :: r => takeDigits r
    | _ => ([], ip.2)
  if ip.1 = [] ∧ fp.1 = [] then none
  else
    let base : ℚ := (digitsToNat ip.1 : ℚ) + (digitsToNat fp.1 : ℚ) / (10 : ℚ) ^ fp.1.length
    match fp.2 with
    | [] => some (s1.1 * base)
    | 'e' :: r =>
      let es := readSign r
      let ed := takeDigits es.2
      if ed.1 = [] ∨ ed.2 ≠ [] then none
      else some (s1.1 * base * (10 : ℚ) ^ ((if es.1 = 1 then (1 : ℤ) else -1) * (digitsToNat ed.1 : ℤ)))
    | 'E' :: r =>
      let es := readSign r
      let ed := takeDigits es.2
      if ed.1 = [] ∨ ed.2 ≠ [] then none
      else some (s1.1 * base * (10 : ℚ) ^ ((if es.1 = 1 then (1 : ℤ) else -1) * (digitsToNat ed.1 : ℤ)))
    | _ => none

/-- Python float constructor on a string: strip, then require the whole
remainder to be one decimal float literal. -/
def pyFloat (s : String) : Option ℚ :=
  parseFloatChars (stripChars s.data)


namespace ServerEnhanced

/-! ## Style extractor of `server_enhanced.py`

Tag-based defaults first, then the parsed inline style attribute overlaid
declaration by declaration, property names normalised to camelCase. -/

/-- Python string capitalize: first character uppercased, the rest
lowercased. -/
def pyCapitalize (s : String) : String :=
  match s.data with
  | [] => ""
  | c :: cs => String.mk (c.toUpper :: cs.map Char.toLower)

/-- Normalise a CSS property name to camelCase: split on hyphens, leave
the first word as is, capitalize the following words, join. -/
def camelize (prop : String) : String :=
  match splitOnChar prop '-' with
  | [] => ""
  | w :: ws => w ++ String.join (ws.map pyCapitalize)

/-- The default visual style bag, in source order: every property a
downstream consumer requests is present with its documented default. -/
def defaultVisual : List (String × String) :=
  [("backgroundColor", "transparent"), ("backgroundImage", "none"),
   ("backgroundSize", "auto"), ("backgroundPosition", "0% 0%"),
   ("backgroundRepeat", "repeat"),
   ("color", "#000000"), ("fontSize", "16px"), ("fontFamily", "inherit"),
   ("fontWeight", "normal"), ("fontStyle", "normal"), ("textAlign", "left"),
   ("textDecoration", "none"), ("lineHeight", "normal"), ("letterSpacing", "normal"),
   ("border", "none"), ("borderTop", "none"), ("borderRight", "none"),
   ("borderBottom", "none"), ("borderLeft", "none"), ("borderRadius", "0px"),
   ("borderTopLeftRadius", "0px"), ("borderTopRightRadius", "0px"),
   ("borderBottomLeftRadius", "0px"), ("borderBottomRightRadius", "0px"),
   ("display", "block"), ("position", "static"), ("top", "auto"),
   ("right", "auto"), ("bottom", "auto"), ("left", "auto"),
   ("width", "auto"), ("height", "auto"), ("maxWidth", "none"),
   ("maxHeight", "none"), ("minWidth", "0"), ("minHeight", "0"),
   ("margin", "0"), ("marginTop", "0"), ("marginRight", "0"),
   ("marginBottom", "0"), ("marginLeft", "0"),
   ("padding", "0"), ("paddingTop", "0"), ("paddingRight", "0"),
   ("paddingBottom", "0"), ("paddingLeft", "0"),
   ("opacity", "1"), ("boxShadow", "none"), ("filter", "none"),
   ("transform", "none"), ("transformOrigin", "50% 50%"),
   ("transition", "none"), ("animation", "none"),
   ("visibility", "visible"), ("overflow", "visible"),
   ("overflowX", "visible"), ("overflowY", "visible"),
   ("clipPath", "none"), ("zIndex", "auto")]

/-- Overlay the declarations of one inline style attribute onto a style
bag: split on semicolons, and for every rule containing a colon, strip
both parts, camelCase the property name and assign it (known or not). -/
def parseStyleRules (style : String) (bag : List (String × String)) : List (String × String) :=
  (splitOnChar style ';').foldl (fun b rule =>
    match splitFirst rule ':' with
    | none => b
    | some pv => assocSet b (camelize (pyStrip pv.1)) (pyStrip pv.2)) bag

/-- Visual style extractor `extract_computed_styles`: the default bag,
overridden by the parsed inline style attribute when one is present. -/
def extract_computed_styles (attrs : List (String × String)) : List (String × String) :=
  let style_attr := assocGetD attrs "style" ""
  if style_attr = "" then defaultVisual
  else parseStyleRules style_attr defaultVisual

/-- The heading tag names. -/
def headingTags : List String := ["h1", "h2", "h3", "h4", "h5", "h6"]

/-- Default font family by tag: serif for headings, monospace for code. -/
def get_default_font_family (name : String) : String :=
  if name ∈ headingTags then "Georgia, serif"
  else if name ∈ ["code", "pre"] then "Courier, monospace"
  else "Arial, sans-serif"

/-- Default font size by tag. -/
def get_default_font_size (name : String) : String :=
  assocGetD [("h1", "32px"), ("h2", "28px"), ("h3", "24px"), ("h4", "20px"),
    ("h5", "18px"), ("h6", "16px"), ("small", "12px")] name "16px"

/-- Default font weight by tag: bold for headings and strong emphasis. -/
def get_default_font_weight (name : String) : String :=
  if name ∈ (headingTags ++ ["strong", "b"]) then "700" else "400"

/-- Typography extractor `extract_element_typography`: tag defaults, then
the six recognised inline properties overlaid. -/
def extract_element_typography (name : String) (attrs : List (String × String)) :
    List (String × String) :=
  let base : List (String × String) :=
    [("fontFamily", get_default_font_family name),
     ("fontSize", get_default_font_size name),
     ("fontWeight", get_default_font_weight name),
     ("lineHeight", "1.5"), ("textAlign", "left"), ("color", "#000000"),
     ("textDecoration", "none"), ("textTransform", "none")]
  let style_attr := assocGetD attrs "style" ""
  if style_attr = "" then base
  else
    (splitOnChar style_attr ';').foldl (fun t rule =>
      match splitFirst rule ':' with
      | none => t
      | some pv =>
        let prop := pyStrip pv.1
        let value := pyStrip pv.2
        if prop = "font-family" then assocSet t "fontFamily" value
        else if prop = "font-size" then assocSet t "fontSize" value
        else if prop = "font-weight" then assocSet t "fontWeight" value
        else if prop = "line-height" then assocSet t "lineHeight" value
        else if prop = "text-align" then assocSet t "textAlign" value
        else if prop = "color" then assocSet t "color" value
        else t) base

/-! ## Tree walker of `server_enhanced.py` -/

/-- Estimated position record for one element. -/
structure PositionRec where
  x : Nat
  y : Nat
  width : Nat
  height : Nat
deriving DecidableEq

/-- Position estimate `calculate_element_position`: the vertical offset is
25 pixels per already extracted element, the size is a per-tag constant
table over the viewport width (all widths used are far below the preset
viewport widths, so the truncated subtraction is exact). -/
def calculate_element_position (name : String) (existingCount : Nat) (vwWidth : Nat) :
    PositionRec :=
  let y_offset := existingCount * 25
  if name ∈ headingTags then ⟨20, y_offset, vwWidth - 40, 40⟩
  else if name ∈ ["p", "div"] then ⟨20, y_offset, vwWidth - 80, 60⟩
  else if name ∈ ["button", "input"] then ⟨20, y_offset, 150, 35⟩
  else if name = "img" then ⟨20, y_offset, 200, 150⟩
  else ⟨20, y_offset, vwWidth - 100, 30⟩

/-- Clean text accessor `get_clean_text`: for a childless element the
stripped full text (necessarily empty), otherwise the stripped direct
text-node children joined by single spaces, truncated to 150 characters. -/
def directTextAux (contents : List HtmlNode) : List Char :=
  contents.foldl (fun acc c =>
    match c with
    | .text s =>
      let ct := stripChars s.data
      if ct = [] then acc else acc ++ ct ++ [' ']
    | .elem _ _ _ => acc) []

/-- Clean text of one element, per `get_clean_text` of the source. -/
def get_clean_text : HtmlNode → String
  | .text _ => ""
  | .elem name attrs children =>
    let t :=
      if children.length = 0 then getTextStrip (.elem name attrs children)
      else String.mk (stripChars (directTextAux children))
    pyTake t 150

/-- One extracted element record.  The fields carried here are the ones
computed by helper logic of the source (name casing, class join, clean
text, position estimate, style and typography bags, hierarchy data); the
remaining keys of the Python dict are verbatim copies of the attribute
bag and raw markup and are not consulted by any property below. -/
structure ElementRecord where
  tagName : String
  className : String
  idAttr : String
  textContent : String
  position : PositionRec
  visual : List (String × String)
  typography : List (String × String)
  depth : Nat
  hasChildren : Bool
deriving DecidableEq

/-- Non-visual tags pruned with their whole subtree by the walker. -/
def skip_tags : List String :=
  ["script", "style", "meta", "link", "head", "noscript", "iframe"]

/-- Structural tags that are kept even when empty. -/
def structural_tags : List String :=
  ["div", "section", "article", "header", "footer", "main", "nav", "aside"]

/-- Build the record appended for one accepted element. -/
def mkElementRecord (name : String) (attrs : List (String × String))
    (children : List HtmlNode) (text_content : String)
    (existingCount : Nat) (depth : Nat) (vwWidth : Nat) : ElementRecord :=
  { tagName := pyUpper name
    className := classNameOf attrs
    idAttr := assocGetD attrs "id" ""
    textContent := text_content
    position := calculate_element_position name existingCount vwWidth
    visual := extract_computed_styles attrs
    typography := extract_element_typography name attrs
    depth := depth
    hasChildren := decide (0 < children.length) }

mutual

/-- Tree walker `extract_html_elements` of `server_enhanced.py`, with the
hardcoded depth bound 8 and element budget 30 of the source lifted into
parameters (the guard shapes are exactly those of the source: strictly
greater than the bound in both cases, checked on entry of every recursive
call before anything else).  Order of the source checks: budget guard,
text-node guard, skip-tag pruning, empty non-structural filter, record
append, then the children in document order at depth + 1. -/
def extract_html_elements (maxDepth maxElements vwWidth : Nat)
    (node : HtmlNode) (elements : List ElementRecord) (depth : Nat) :
    List ElementRecord :=
  if depth > maxDepth ∨ elements.length > maxElements then elements
  else
    match node with
    | .text _ => elements
    | .elem name attrs children =>
      if name ∈ skip_tags then elements
      else
        let text_content := get_clean_text (.elem name attrs children)
        if text_content = "" ∧ name ∉ structural_tags ∧
            hasImgDescendant (.elem name attrs children) = false ∧
            children.length = 0 then
          elements
        else
          extract_children maxDepth maxElements vwWidth children
            (elements ++ [mkElementRecord name attrs children text_content
              elements.length depth vwWidth])
            (depth + 1)

/-- Walk a child list left to right, threading the accumulated records. -/
def extract_children (maxDepth maxElements vwWidth : Nat) :
    List HtmlNode → List ElementRecord → Nat → List ElementRecord
  | [], elements, _ => elements
  | c :: rest, elements, depth =>
    extract_children maxDepth maxElements vwWidth rest
      (extract_html_elements maxDepth maxElements vwWidth c elements depth) depth

end

/-- The walker at the bounds hardcoded in the source: depth 8, budget 30. -/
def extractHtmlElementsRun (vwWidth : Nat) (doc : HtmlNode) : List ElementRecord :=
  extract_html_elements 8 30 vwWidth doc [] 0

end ServerEnhanced

namespace ServerEnhanced

/-! ## Design-model mapper of `server_enhanced.py`

The rectangle mapper `create_figma_rectangle_section` and the box-shadow
mapper it uses.  The shadow mapper is wrapped in a bare exception handler
in the source; nothing in its embedded body can raise, so the handler has
no observable effect here.  The rectangle mapper itself calls the Python
float constructor on the raw opacity value outside any handler; its result
type is therefore `Option`, with `none` modelling the raised error. -/

/-- Anchored match of the pixel-number pattern body (digits, optional
dot-digits fraction, then the letters px), returning the matched
characters and the remainder. -/
def matchPxCore (cs : List Char) : Option (List Char × List Char) :=
  let ip := takeDigits cs
  if ip.1 = [] then none
  else
    let fr : List Char × List Char :=
      match ip.2 with
      | '.' :: r =>
        let fp := takeDigits r
        if fp.1 = [] then ([], ip.2) else ('.' :: fp.1, fp.2)
      | _ => ([], ip.2)
    match fr.2 with
    | 'p' :: 'x' :: rest => some (ip.1 ++ fr.1 ++ ['p', 'x'], rest)
    | _ => none

/-- Anchored match of the signed pixel-number pattern (optional minus). -/
def matchPxAt (cs : List Char) : Option (List Char × List Char) :=
  match cs with
  | '-' :: r =>
    match matchPxCore r with
    | some m => some ('-' :: m.1, m.2)
    | none => none
  | _ => matchPxCore cs

/-- Scan for all non-overlapping pixel-number matches left to right.  The
fuel argument bounds the scan by the input length; every successful match
consumes at least three characters, so the fuel never runs out before the
scan reaches the end of the input. -/
def findPxAux : Nat → List Char → List String
  | 0, _ => []
  | _, [] => []
  | fuel + 1, c :: cs =>
    match matchPxAt (c :: cs) with
    | some m => String.mk m.1 :: findPxAux fuel m.2
    | none => findPxAux fuel cs

/-- All pixel-number substrings of a box-shadow value, in order. -/
def findPxMatches (cs : List Char) : List String := findPxAux cs.length cs

/-- Maximal run of hexadecimal digits capped at a length bound. -/
def takeHexAux : Nat → List Char → List Char × List Char
  | 0, cs => ([], cs)
  | _, [] => ([], [])
  | n + 1, c :: cs =>
    if isHexChar c then
      let r := takeHexAux n cs
      (c :: r.1, r.2)
    else ([], c :: cs)

/-- Anchored match of the colour alternation used by the shadow mapper: a
hash followed by three to six hex digits, or an rgb/rgba call with a
nonempty parenthesised body. -/
def matchColorAt (cs : List Char) : Option (List Char × List Char) :=
  match cs with
  | '#' :: r =>
    let hx := takeHexAux 6 r
    if 3 ≤ hx.1.length then some ('#' :: hx.1, hx.2) else none
  | 'r' :: 'g' :: 'b' :: 'a' :: '(' :: r =>
    let body := r.span (fun c => c ≠ ')')
    match body.2 with
    | ')' :: rest =>
      if body.1 = [] then none
      else some (['r', 'g', 'b', 'a', '('] ++ body.1 ++ [')'], rest)
    | _ => none
  | 'r' :: 'g' :: 'b' :: '(' :: r =>
    let body := r.span (fun c => c ≠ ')')
    match body.2 with
    | ')' :: rest =>
      if body.1 = [] then none
      else some (['r', 'g', 'b', '('] ++ body.1 ++ [')'], rest)
    | _ => none
  | _ => none

/-- Scan for all non-overlapping colour matches left to right (fuel as in
the pixel-number scan; every match consumes at least four characters). -/
def findColorAux : Nat → List Char → List String
  | 0, _ => []
  | _, [] => []
  | fuel + 1, c :: cs =>
    match matchColorAt (c :: cs) with
    | some m => String.mk m.1 :: findColorAux fuel m.2
    | none => findColorAux fuel cs

/-- All colour substrings of a box-shadow value, in order. -/
def findColorMatches (cs : List Char) : List String := findColorAux cs.length cs

/-- Primary-axis alignment table for justify-content values. -/
def map_justify_content (justify_content : String) : String :=
  assocGetD [("flex-start", "MIN"), ("center", "CENTER"),
    ("flex-end", "MAX"), ("space-between", "SPACE_BETWEEN")] justify_content "MIN"

/-- Counter-axis alignment table for align-items values. -/
def map_align_items (align_items : String) : String :=
  assocGetD [("flex-start", "MIN"), ("center", "CENTER"),
    ("flex-end", "MAX"), ("stretch", "STRETCH")] align_items "MIN"

/-- A drop-shadow effect as produced by the box-shadow mapper. -/
structure FigmaEffect where
  offsetX : ℚ
  offsetY : ℚ
  radius : ℚ
  spread : ℚ
  color : RGBColor
  visible : Bool
deriving DecidableEq

/-- Box-shadow mapper `map_box_shadow_to_figma`: collect the pixel-number
and colour substrings; with fewer than three numbers there is no effect;
otherwise the first three numbers are the offsets and blur radius, the
fourth (when present) the spread, and the first colour (or black) the
shadow colour.  Each number string is re-parsed by the length parser,
which ignores a leading minus sign. -/
def map_box_shadow_to_figma (box_shadow : String) : Option FigmaEffect :=
  let numbers := findPxMatches box_shadow.data
  let colors := findColorMatches box_shadow.data
  if 3 ≤ numbers.length then
    let shadow_color := parse_color (match colors with | [] => "#000000" | c :: _ => c)
    some
      { offsetX := parse_pixel_value (numbers.getD 0 "")
        offsetY := parse_pixel_value (numbers.getD 1 "")
        radius := parse_pixel_value (numbers.getD 2 "")
        spread := if 3 < numbers.length then parse_pixel_value (numbers.getD 3 "") else 0
        color := shadow_color.getD ⟨0, 0, 0⟩
        visible := true }
  else none

/-- A mapped rectangle, flattening the top-level keys and the nested
figma-properties dict of the source into one record. -/
structure FigmaRect where
  name : String
  x : Nat
  y : Nat
  width : Nat
  height : Nat
  backgroundColor : String
  borderRadius : String
  border : String
  fills : List RGBColor
  strokes : List RGBColor
  strokeWeight : ℚ
  cornerRadius : ℚ
  effects : List FigmaEffect
  layoutMode : String
  primaryAxisAlignItems : String
  counterAxisAlignItems : String
  paddingLeft : ℚ
  paddingRight : ℚ
  paddingTop : ℚ
  paddingBottom : ℚ
  itemSpacing : ℚ
  opacity : ℚ
  visible : Bool
  hierDepth : Nat
  hierHasChildren : Bool
  zIndex : ℚ
deriving DecidableEq

/-- Background fills of the rectangle mapper: a present, nonempty and
non-transparent background colour contributes its parsed colour; anything
else contributes nothing. -/
def rectFills (visual : List (String × String)) : List RGBColor :=
  match assocGet visual "backgroundColor" with
  | none => []
  | some bg =>
    if bg ≠ "" ∧ bg ≠ "transparent" then
      match parse_color bg with
      | some c => [c]
      | none => []
    else []

/-- Strokes and stroke weight of the rectangle mapper from the border
shorthand: on a present non-none border with at least three
whitespace-separated parts, the weight parses from the first part, and
the colour-looking third part contributes a stroke when it parses. -/
def rectStrokes (visual : List (String × String)) : List RGBColor × ℚ :=
  match assocGet visual "border" with
  | none => ([], 0)
  | some b =>
    if b ≠ "" ∧ b ≠ "none" then
      let border_parts := pyWords b
      if 3 ≤ border_parts.length then
        let w := parse_pixel_value (border_parts.getD 0 "")
        match parse_color (border_parts.getD 2 "#000000") with
        | some c => ([c], w)
        | none => ([], w)
      else ([], 0)
    else ([], 0)

/-- Effects of the rectangle mapper: a present non-none box-shadow value
contributes its mapped drop shadow when the shadow mapper finds one. -/
def rectEffects (visual : List (String × String)) : List FigmaEffect :=
  match assocGet visual "boxShadow" with
  | none => []
  | some bs =>
    if bs ≠ "" ∧ bs ≠ "none" then
      match map_box_shadow_to_figma bs with
      | some e => [e]
      | none => []
    else []

/-- Auto-layout fields of the rectangle mapper (layout mode, primary and
counter axis alignment, item spacing), derived only when display is
exactly flex. -/
def rectLayout (visual : List (String × String)) : String × String × String × ℚ :=
  if assocGet visual "display" = some "flex" then
    (if assocGetD visual "flexDirection" "row" = "row" then "HORIZONTAL" else "VERTICAL",
      map_justify_content (assocGetD visual "justifyContent" "flex-start"),
      map_align_items (assocGetD visual "alignItems" "stretch"),
      parse_pixel_value (assocGetD visual "gap" "0px"))
  else ("NONE", "MIN", "MIN", 0)

/-- Opacity of the rectangle mapper: the Python float constructor applied
to the raw opacity value when one is present (`none` models the raised
conversion error), and the numeric default 1 otherwise. -/
def opacityValue (visual : List (String × String)) : Option ℚ :=
  match assocGet visual "opacity" with
  | none => some 1
  | some s => pyFloat s

/-- The rectangle produced by the mapper once the opacity conversion has
succeeded, assembling the defensive sub-mappings above. -/
def mkFigmaRect (hierDepth : Nat) (hierHasChildren : Bool)
    (visual : List (String × String)) (position : PositionRec) (tag_name : String)
    (op : ℚ) : FigmaRect :=
  { name := pyUpper tag_name ++ "_Section"
    x := position.x
    y := position.y
    width := position.width
    height := position.height
    backgroundColor := assocGetD visual "backgroundColor" "transparent"
    borderRadius := assocGetD visual "borderRadius" "0px"
    border := assocGetD visual "border" "none"
    fills := rectFills visual
    strokes := (rectStrokes visual).1
    strokeWeight := (rectStrokes visual).2
    cornerRadius := parse_pixel_value (assocGetD visual "borderRadius" "0px")
    effects := rectEffects visual
    layoutMode := (rectLayout visual).1
    primaryAxisAlignItems := (rectLayout visual).2.1
    counterAxisAlignItems := (rectLayout visual).2.2.1
    paddingLeft := parse_pixel_value (assocGetD visual "paddingLeft" "0px")
    paddingRight := parse_pixel_value (assocGetD visual "paddingRight" "0px")
    paddingTop := parse_pixel_value (assocGetD visual "paddingTop" "0px")
    paddingBottom := parse_pixel_value (assocGetD visual "paddingBottom" "0px")
    itemSpacing := (rectLayout visual).2.2.2
    opacity := op
    visible := decide (assocGetD visual "display" "block" ≠ "none")
    hierDepth := hierDepth
    hierHasChildren := hierHasChildren
    zIndex := parse_pixel_value (assocGetD visual "zIndex" "0") }

/-- Rectangle mapper `create_figma_rectangle_section`.  All sub-values are
mapped defensively through the parsers above except opacity: the source
applies the Python float constructor to the raw opacity string with no
handler, so a non-float opacity yields `none` (a raised error) instead of
a rectangle. -/
def create_figma_rectangle_section (hierDepth : Nat) (hierHasChildren : Bool)
    (visual : List (String × String)) (position : PositionRec) (tag_name : String) :
    Option FigmaRect :=
  match opacityValue visual with
  | none => none
  | some op => some (mkFigmaRect hierDepth hierHasChildren visual position tag_name op)

end ServerEnhanced

/-! ## URL validation

Both endpoints validate through the standard URL splitter: a scheme is
the lowercased prefix before the first colon when that prefix is a letter
followed by letters, digits, plus, minus or dot; the network location is
what follows a double slash at the start of the remainder, up to the
first slash, question mark or hash.  Validation requires both parts to be
nonempty. -/

/-- Whether a character may occur in a URL scheme after the first. -/
def isSchemeChar (c : Char) : Bool :=
  c.isAlphanum ∨ c = '+' ∨ c = '-' ∨ c = '.'

/-- Split off the URL scheme: the pair of the lowercased scheme (empty
when there is none) and the remainder of the URL. -/
def splitScheme (url : String) : String × String :=
  match splitFirst url ':' with
  | none => ("", url)
  | some pr =>
    match pr.1.data with
    | [] => ("", url)
    | c :: cs =>
      if c.isAlpha ∧ cs.all isSchemeChar then (pyLower pr.1, pr.2)
      else ("", url)

/-- Network-location component of the part following the scheme. -/
def netlocOf (rest : String) : String :=
  match rest.data with
  | '/' :: '/' :: r =>
    String.mk (r.takeWhile (fun c => c ≠ '/' ∧ c ≠ '?' ∧ c ≠ '#'))
  | _ => ""

/-- URL validation shared by the capture endpoints: nonempty scheme and
nonempty network location. -/
def validUrl (url : String) : Bool :=
  let sp := splitScheme url
  decide (sp.1 ≠ "" ∧ netlocOf sp.2 ≠ "")

namespace Server

/-! ## The legacy server `server.py` -/

/-- CSS length parser `parse_css_value` of `server.py`: textually the same
logic as the enhanced parser (empty and `auto` give 0, else the first
unsigned decimal number, else 0). -/
def parse_css_value (value : String) : ℚ :=
  if value = "" ∨ value = "auto" then 0
  else
    match ServerEnhanced.scanNumber value.data with
    | some q => q
    | none => 0

/-- Non-visual tags skipped by the legacy extractor (note `title` is in
this list and `iframe` is not, unlike the enhanced walker). -/
def skip_tags : List String :=
  ["script", "style", "meta", "link", "title", "head", "noscript"]

/-- One element record of the legacy server.  The identifier is derived
from depth and tag name only; the visual and typography dicts of the
source are constants and are omitted here. -/
structure SElementRecord where
  idStr : String
  tagName : String
  className : String
  textContent : String
  x : Nat
  y : Nat
  width : Nat
  height : Nat
  depth : Nat
deriving DecidableEq

/-- Legacy extractor `extract_element_data`: skip non-visual tags, else a
record whose identifier is the word element, the depth and the tag name
joined by underscores, with the full stripped text truncated to 200
characters and constant default layout values. -/
def extract_element_data (name : String) (attrs : List (String × String))
    (children : List HtmlNode) (depth : Nat) : Option SElementRecord :=
  if pyLower name ∈ skip_tags then none
  else
    let text_content := getTextStrip (.elem name attrs children)
    some
      { idStr := "element_" ++ toString depth ++ "_" ++ name
        tagName := pyUpper name
        className := classNameOf attrs
        textContent := pyTake text_content 200
        x := 0
        y := 0
        width := 100
        height := if text_content ≠ "" then 20 else 50
        depth := depth }

mutual

/-- Legacy traversal `process_element` of `server.py`: depth bound 10
(strict, pruning the subtree), extract the record, adjust its layout from
the depth and the number of already collected elements, append it, then
recurse into the element children in document order.  A skip-tag element
produces no record but its children are still visited. -/
def process_element (node : HtmlNode) (elements : List SElementRecord) (depth : Nat) :
    List SElementRecord :=
  if depth > 10 then elements
  else
    match node with
    | .text _ => elements
    | .elem name attrs children =>
      let elements' :=
        match extract_element_data name attrs children depth with
        | none => elements
        | some d =>
          let d1 := { d with x := depth * 20, y := elements.length * 30 }
          let d2 :=
            if d1.textContent ≠ "" then
              { d1 with width := min 800 (d1.textContent.data.length * 8), height := 25 }
            else
              { d1 with width := 200 - depth * 10, height := 50 }
          elements ++ [d2]
      process_children children elements' (depth + 1)

/-- Walk a child list left to right; text children carry no tag name and
are not recursed into. -/
def process_children : List HtmlNode → List SElementRecord → Nat → List SElementRecord
  | [], els, _ => els
  | .text _ :: rest, els, d => process_children rest els d
  | c :: rest, els, d => process_children rest (process_element c els d) d

end

/-- Response of the legacy single-capture endpoint: HTTP status, optional
error message, whether the outbound fetch was attempted, and the element
records of the success payload. -/
structure CaptureResponse where
  status : Nat
  error : Option String
  attempted : Bool
  elements : List SElementRecord
deriving DecidableEq

/-- Endpoint `capture_website` of `server.py` on a request body that may
lack the JSON object or the url key, with the outbound fetch as an oracle
(success gives the parsed document, failure the exception message of the
request library).  Missing url gives 400; a url without nonempty scheme
and network location gives 400 with the invalid-format message before any
fetch; a fetch error gives 400; otherwise 200 with the traversal of the
body (or whole document), truncated to 100 records. -/
def capture_website (body : Option (Option String))
    (fetch : String → Except String HtmlNode) : CaptureResponse :=
  match body with
  | none => ⟨400, some "URL is required", false, []⟩
  | some none => ⟨400, some "URL is required", false, []⟩
  | some (some url) =>
    if validUrl url = false then ⟨400, some "Invalid URL format", false, []⟩
    else
      match fetch url with
      | .error e => ⟨400, some ("Failed to fetch website: " ++ e), true, []⟩
      | .ok doc => ⟨200, none, true, (process_element (findBody doc) [] 0).take 100⟩

end Server

namespace ServerEnhanced

/-! ## Endpoints of `server_enhanced.py`

The entry point `main.py` serves this app.  Captures run the static
pipeline (the browser driver is unavailable and the driver field stays
empty, so `capture_viewport` falls through to the static extraction; a
raised driver error would instead surface as a 500, not a 400).  The
outbound fetch is an oracle from url and viewport to either a parsed
document or the exception message of the request library. -/

/-- A named viewport configuration. -/
structure ViewportCfg where
  width : Nat
  height : Nat
  device : String
deriving DecidableEq

/-- The preset viewport table. -/
def VIEWPORTS : List (String × ViewportCfg) :=
  [("desktop", ⟨1440, 900, "Desktop"⟩),
   ("tablet", ⟨768, 1024, "Tablet"⟩),
   ("mobile", ⟨375, 667, "Mobile"⟩)]

/-- Result of one viewport capture: the real extraction payload, or the
mock fallback payload produced by `create_error_response` after a caught
error.  Payload keys not consulted by any property below (page metadata,
aggregates, design analysis) are omitted; the element list of the real
payload is the traversal result truncated to 100 records. -/
inductive CapturePayload where
  | real (url : String) (cfg : ViewportCfg) (elements : List ElementRecord)
  | fallback (url : String) (cfg : ViewportCfg) (errorMessage : String)
deriving DecidableEq

/-- Mock payload builder `create_error_response` (its constant mock
element list is not consulted by any property below). -/
def create_error_response (url : String) (cfg : ViewportCfg) (msg : String) :
    CapturePayload :=
  .fallback url cfg msg

/-- Static extraction `extract_real_website_data`: fetch, then walk the
body (or whole document) with the hardcoded bounds; every caught error is
converted into the mock fallback payload, so a payload is always
returned. -/
def extract_real_website_data (fetch : String → ViewportCfg → Except String HtmlNode)
    (url : String) (cfg : ViewportCfg) : CapturePayload :=
  match fetch url cfg with
  | .ok doc => .real url cfg ((extractHtmlElementsRun cfg.width (findBody doc)).take 100)
  | .error e => create_error_response url cfg ("Network error: " ++ e)

/-- Viewport capture `capture_viewport` on a host without a browser
driver: the static extraction. -/
def capture_viewport (fetch : String → ViewportCfg → Except String HtmlNode)
    (url : String) (cfg : ViewportCfg) : CapturePayload :=
  extract_real_website_data fetch url cfg

/-- Response of the enhanced single-capture endpoint. -/
structure SingleResponse where
  status : Nat
  error : Option String
  attempted : Bool
  payload : Option CapturePayload
deriving DecidableEq

/-- Endpoint `capture_single` of `server_enhanced.py`: missing url gives
400, but a present url is passed to the capture with no validation at
all; the static capture always returns a payload (falling back to mock
data on any error), so the response is 200 for every present url. -/
def capture_single (body : Option (Option String))
    (fetch : String → ViewportCfg → Except String HtmlNode) : SingleResponse :=
  match body with
  | none => ⟨400, some "URL is required", false, none⟩
  | some none => ⟨400, some "URL is required", false, none⟩
  | some (some url) =>
    ⟨200, none, true, some (capture_viewport fetch url ⟨1440, 900, "Desktop"⟩)⟩

/-- One entry of the requested viewports array: a preset name string, or
an explicit configuration dict whose device key may be missing. -/
inductive ViewportEntry where
  | preset (name : String)
  | explicit (width : Nat) (height : Nat) (device : Option String)
deriving DecidableEq

/-- Results-map key of an entry: the preset name, or the device label
(the word unknown when missing) joined with the dimensions. -/
def entryName : ViewportEntry → String
  | .preset s => s
  | .explicit w h dev => dev.getD "unknown" ++ "_" ++ toString w ++ "x" ++ toString h

/-- The per-entry capture loop of `capture_responsive`: a preset name not
in the viewport table is skipped silently; a known preset or an explicit
configuration runs one capture and stores its payload under the entry
name (dict assignment semantics).  An explicit entry without a device key
raises a key error inside the extraction (before its handlers can build a
fallback), aborting the whole loop. -/
def runViewports (fetch : String → ViewportCfg → Except String HtmlNode)
    (url : String) :
    List ViewportEntry → List (String × CapturePayload) →
    Except String (List (String × CapturePayload))
  | [], results => .ok results
  | .preset s :: rest, results =>
    match assocGet VIEWPORTS s with
    | none => runViewports fetch url rest results
    | some cfg =>
      runViewports fetch url rest
        (assocSet results s (extract_real_website_data fetch url cfg))
  | .explicit w h dev :: rest, results =>
    match dev with
    | none => .error "device"
    | some d =>
      runViewports fetch url rest
        (assocSet results (entryName (.explicit w h (some d)))
          (extract_real_website_data fetch url ⟨w, h, d⟩))

/-- Request body of the responsive endpoint. -/
structure ResponsiveBody where
  url : Option String
  viewports : Option (List ViewportEntry)

/-- Response of the responsive endpoint. -/
structure ResponsiveResponse where
  status : Nat
  error : Option String
  results : List (String × CapturePayload)
deriving DecidableEq

/-- Assembly of the responsive response from the loop outcome: an escaped
error gives 500 with its message, an empty results map gives 500 with the
failed-all-viewports message, and a nonempty map gives 200 with the map. -/
def responsiveResult :
    Except String (List (String × CapturePayload)) → ResponsiveResponse
  | .error e => ⟨500, some ("Capture failed: " ++ e), []⟩
  | .ok [] => ⟨500, some "Failed to capture any viewports", []⟩
  | .ok results => ⟨200, none, results⟩

/-- Endpoint `capture_responsive` of `server_enhanced.py`: missing url
gives 400, invalid url gives 400 with the invalid-format message, then
the loop over the requested entries (defaulting to the three preset
names), whose outcome is assembled by `responsiveResult`. -/
def capture_responsive (body : Option ResponsiveBody)
    (fetch : String → ViewportCfg → Except String HtmlNode) : ResponsiveResponse :=
  match body with
  | none => ⟨400, some "URL is required", []⟩
  | some b =>
    match b.url with
    | none => ⟨400, some "URL is required", []⟩
    | some url =>
      if validUrl url = false then ⟨400, some "Invalid URL format", []⟩
      else
        let entries := b.viewports.getD [.preset "desktop", .preset "tablet", .preset "mobile"]
        responsiveResult (runViewports fetch url entries [])

end ServerEnhanced

/-! ## Verification-layer definitions

Auxiliary definitions used only to state and prove the theorems below. -/

/-- Standard decimal rendering of a natural number. -/
def renderNat (n : Nat) : List Char :=
  if n = 0 then ['0'] else ((Nat.digits 10 n).reverse.map Nat.digitChar)

namespace ServerEnhanced

/-- Whether a requested viewport entry is acted on by the capture loop. -/
def validEntry : ViewportEntry → Bool
  | .preset s => (assocGet VIEWPORTS s).isSome
  | .explicit _ _ _ => true

/-- Whether an explicit entry carries the device key the extraction
reads unconditionally. -/
def entryDeviceOk : ViewportEntry → Bool
  | .preset _ => true
  | .explicit _ _ dev => dev.isSome

end ServerEnhanced

/-! ## Proof-layer helpers

Lemmas connecting the embedded parsers and traversals to the properties
claimed of them.  `renderNat` is the reference decimal rendering used to
quantify over all numerals. -/

theorem digitChar_isDigit (d : Nat) (h : d < 10) : (Nat.digitChar d).isDigit = true := by
  interval_cases d <;> rfl

theorem charDigitVal_digitChar (d : Nat) (h : d < 10) :
    charDigitVal (Nat.digitChar d) = d := by
  interval_cases d <;> rfl

theorem renderNat_ne_nil (n : Nat) : renderNat n ≠ [] := by
  unfold renderNat
  split
  · simp
  · next h =>
    intro hc
    rw [List.map_eq_nil_iff, List.reverse_eq_nil_iff] at hc
    exact h (Nat.digits_eq_nil_iff_eq_zero.mp hc)

theorem renderNat_digits (n : Nat) : ∀ c ∈ renderNat n, c.isDigit = true := by
  unfold renderNat
  split
  · intro c hc
    simp only [List.mem_singleton] at hc
    subst hc
    rfl
  · intro c hc
    rw [List.mem_map] at hc
    obtain ⟨d, hd, rfl⟩ := hc
    rw [List.mem_reverse] at hd
    exact digitChar_isDigit d (Nat.digits_lt_base (by norm_num) hd)

theorem takeDigits_append (ds rest : List Char)
    (hds : ∀ c ∈ ds, c.isDigit = true)
    (hrest : ∀ c, rest.head? = some c → c.isDigit = false) :
    takeDigits (ds ++ rest) = (ds, rest) := by
  induction ds with
  | nil =>
    simp only [List.nil_append]
    cases rest with
    | nil => rfl
    | cons r rs =>
      have hr := hrest r rfl
      simp only [takeDigits, hr]
      simp
  | cons d ds ih =>
    have hd := hds d (List.mem_cons_self d ds)
    have ih' := ih (fun c hc => hds c (List.mem_cons_of_mem d hc))
    simp only [List.cons_append, takeDigits, hd, if_true, List.append_eq, ih']

theorem foldr_ofDigits (l : List Nat) :
    l.foldr (fun d a => 10 * a + d) 0 = Nat.ofDigits 10 l := by
  induction l with
  | nil => simp [Nat.ofDigits]
  | cons d l ih => simp [Nat.ofDigits_cons, ih]; omega

theorem foldl_digitChar_val (l : List Nat) :
    (∀ d ∈ l, d < 10) → ∀ a : Nat,
    l.foldl (fun x d => 10 * x + charDigitVal (Nat.digitChar d)) a =
      l.foldl (fun x d => 10 * x + d) a := by
  induction l with
  | nil => intro _ a; rfl
  | cons d l ih =>
    intro h a
    simp only [List.foldl_cons]
    rw [charDigitVal_digitChar d (h d (List.mem_cons_self d l))]
    exact ih (fun x hx => h x (List.mem_cons_of_mem d hx)) _

theorem digitsToNat_renderNat (n : Nat) : digitsToNat (renderNat n) = n := by
  unfold renderNat
  split
  · next h => subst h; rfl
  · unfold digitsToNat
    rw [List.foldl_map]
    rw [foldl_digitChar_val _ (fun d hd =>
      Nat.digits_lt_base (by norm_num) (List.mem_reverse.mp hd)) 0]
    rw [List.foldl_reverse]
    have : (Nat.digits 10 n).foldr (fun x y => 10 * y + x) 0 =
        (Nat.digits 10 n).foldr (fun d a => 10 * a + d) 0 := rfl
    rw [this, foldr_ofDigits]
    exact Nat.ofDigits_digits 10 n

theorem scanNumber_render (n : Nat) (suf : List Char)
    (hsuf : ∀ c, suf.head? = some c → c.isDigit = false)
    (hdot : suf.head? ≠ some '.') :
    ServerEnhanced.scanNumber (renderNat n ++ suf) = some (n : ℚ) := by
  obtain ⟨d, ds, hrender⟩ : ∃ d ds, renderNat n = d :: ds := by
    cases h : renderNat n with
    | nil => exact absurd h (renderNat_ne_nil n)
    | cons d ds => exact ⟨d, ds, rfl⟩
  have hd : d.isDigit = true := renderNat_digits n d (by rw [hrender]; exact List.mem_cons_self d ds)
  have ht := takeDigits_append (d :: ds) suf (by rw [← hrender]; exact renderNat_digits n) hsuf
  rw [hrender]
  simp only [List.cons_append, ServerEnhanced.scanNumber, hd, if_true, List.append_eq]
  rw [List.cons_append] at ht
  simp only [ht]
  have hn : digitsToNat (d :: ds) = n := by rw [← hrender]; exact digitsToNat_renderNat n
  cases suf with
  | nil => simp [hn]
  | cons s ss =>
    have hs : s ≠ '.' := by intro h; exact hdot (by rw [h]; rfl)
    split
    · exfalso
      rename_i cs2 heq
      injection heq with h1 h2
      exact hs h1
    · simp [hn]

theorem parse_pixel_value_render (n : Nat) (suf : List Char)
    (hsuf : ∀ c, suf.head? = some c → c.isDigit = false)
    (hdot : suf.head? ≠ some '.')
    (hauto : renderNat n ++ suf ≠ "auto".data) :
    ServerEnhanced.parse_pixel_value (String.mk (renderNat n ++ suf)) = n := by
  unfold ServerEnhanced.parse_pixel_value
  rw [if_neg]
  · have hdata : (String.mk (renderNat n ++ suf)).data = renderNat n ++ suf := rfl
    rw [hdata, scanNumber_render n suf hsuf hdot]
  · intro h
    rcases h with h | h
    · have : renderNat n ++ suf = [] := congrArg String.data h
      exact renderNat_ne_nil n (List.append_eq_nil.mp this).1
    · exact hauto (congrArg String.data h)

namespace ServerEnhanced

theorem extract_html_elements_stop (maxDepth maxElements vwWidth : Nat)
    (node : HtmlNode) (elements : List ElementRecord) (depth : Nat)
    (h : elements.length > maxElements) :
    extract_html_elements maxDepth maxElements vwWidth node elements depth = elements := by
  rw [extract_html_elements.eq_def]
  rw [if_pos (Or.inr h)]

theorem extract_children_stop (maxDepth maxElements vwWidth : Nat)
    (children : List HtmlNode) (elements : List ElementRecord) (depth : Nat)
    (h : elements.length > maxElements) :
    extract_children maxDepth maxElements vwWidth children elements depth = elements := by
  induction children with
  | nil => rfl
  | cons c rest ih =>
    rw [extract_children]
    rw [extract_html_elements_stop maxDepth maxElements vwWidth c elements depth h]
    exact ih

theorem extract_html_elements_text (maxDepth maxElements vwWidth : Nat)
    (s : String) (elements : List ElementRecord) (depth : Nat) :
    extract_html_elements maxDepth maxElements vwWidth (.text s) elements depth = elements := by
  rw [extract_html_elements.eq_def]
  split
  · rfl
  · rfl

end ServerEnhanced

theorem assocGet_assocSet_self {α : Type} (m : List (String × α)) (k : String) (v : α) :
    assocGet (assocSet m k v) k = some v := by
  induction m with
  | nil => simp [assocSet, assocGet]
  | cons p rest ih =>
    by_cases h : p.1 = k
    · simp [assocSet, assocGet, h]
    · simp [assocSet, assocGet, h, ih]

theorem assocGet_assocSet_isSome {α : Type} (m : List (String × α)) (k k' : String) (v : α)
    (h : (assocGet m k').isSome) :
    (assocGet (assocSet m k v) k').isSome := by
  induction m with
  | nil => simp [assocGet] at h
  | cons p rest ih =>
    obtain ⟨pk, pv⟩ := p
    by_cases hp : pk = k
    · subst hp
      by_cases hk' : pk = k'
      · subst hk'
        simp [assocSet, assocGet]
      · simp only [assocGet, hk', if_neg] at h
        simp only [assocSet, if_pos rfl, assocGet, hk', if_neg]
        simpa using h
    · by_cases hk' : pk = k'
      · subst hk'
        simp [assocSet, assocGet, hp]
      · simp only [assocGet, hk', if_neg] at h
        simp only [assocSet, hp, if_neg, assocGet, hk']
        simpa using ih (by simpa using h)

theorem assocSet_ne_nil {α : Type} (m : List (String × α)) (k : String) (v : α) :
    assocSet m k v ≠ [] := by
  cases m with
  | nil => simp [assocSet]
  | cons p rest =>
    by_cases h : p.1 = k
    · simp [assocSet, h]
    · simp [assocSet, h]

namespace ServerEnhanced

theorem runViewports_spec (fetch : String → ViewportCfg → Except String HtmlNode)
    (url : String) :
    ∀ (entries : List ViewportEntry) (results : List (String × CapturePayload)),
    entries.all entryDeviceOk = true →
    ∃ res, runViewports fetch url entries results = .ok res ∧
      (res = [] ↔ (results = [] ∧ entries.all (fun e => !validEntry e) = true)) ∧
      (∀ e ∈ entries, validEntry e = true → (assocGet res (entryName e)).isSome) ∧
      (∀ k, (assocGet results k).isSome → (assocGet res k).isSome) := by
  intro entries
  induction entries with
  | nil =>
    intro results _
    refine ⟨results, rfl, by simp, by simp, fun k hk => hk⟩
  | cons e rest ih =>
    intro results hdev
    rw [List.all_cons] at hdev
    obtain ⟨hdevE, hdevRest⟩ := Bool.and_eq_true_iff.mp hdev
    cases e with
    | preset s =>
      cases hv : assocGet VIEWPORTS s with
      | none =>
        obtain ⟨res, hrun, hempty, hmem, hpres⟩ := ih results hdevRest
        refine ⟨res, ?_, ?_, ?_, hpres⟩
        · rw [runViewports, hv]
          exact hrun
        · rw [hempty]
          constructor
          · rintro ⟨h1, h2⟩
            refine ⟨h1, ?_⟩
            rw [List.all_cons]
            refine Bool.and_eq_true_iff.mpr ⟨?_, h2⟩
            simp [validEntry, hv]
          · rintro ⟨h1, h2⟩
            rw [List.all_cons] at h2
            exact ⟨h1, (Bool.and_eq_true_iff.mp h2).2⟩
        · intro x hx hvx
          rcases List.mem_cons.mp hx with hx | hx
          · subst hx
            simp [validEntry, hv] at hvx
          · exact hmem x hx hvx
      | some cfg =>
        obtain ⟨res, hrun, hempty, hmem, hpres⟩ :=
          ih (assocSet results s (extract_real_website_data fetch url cfg)) hdevRest
        refine ⟨res, ?_, ?_, ?_, ?_⟩
        · rw [runViewports, hv]
          exact hrun
        · constructor
          · intro hres
            exfalso
            have := hempty.mp hres
            exact assocSet_ne_nil results s _ this.1
          · rintro ⟨h1, h2⟩
            rw [List.all_cons] at h2
            have : (!validEntry (ViewportEntry.preset s)) = true :=
              (Bool.and_eq_true_iff.mp h2).1
            simp [validEntry, hv] at this
        · intro x hx hvx
          rcases List.mem_cons.mp hx with hx | hx
          · subst hx
            apply hpres
            rw [entryName]
            rw [assocGet_assocSet_self]
            rfl
          · exact hmem x hx hvx
        · intro k hk
          exact hpres k (assocGet_assocSet_isSome results s k _ hk)
    | explicit w hgt dev =>
      cases dev with
      | none => simp [entryDeviceOk] at hdevE
      | some d =>
        obtain ⟨res, hrun, hempty, hmem, hpres⟩ :=
          ih (assocSet results (entryName (.explicit w hgt (some d)))
            (extract_real_website_data fetch url ⟨w, hgt, d⟩)) hdevRest
        refine ⟨res, ?_, ?_, ?_, ?_⟩
        · rw [runViewports]
          exact hrun
        · constructor
          · intro hres
            exfalso
            have := hempty.mp hres
            exact assocSet_ne_nil results _ _ this.1
          · rintro ⟨h1, h2⟩
            rw [List.all_cons] at h2
            have : (!validEntry (ViewportEntry.explicit w hgt (some d))) = true :=
              (Bool.and_eq_true_iff.mp h2).1
            simp [validEntry] at this
        · intro x hx hvx
          rcases List.mem_cons.mp hx with hx | hx
          · subst hx
            apply hpres
            rw [assocGet_assocSet_self]
            rfl
          · exact hmem x hx hvx
        · intro k hk
          exact hpres k (assocGet_assocSet_isSome results _ k _ hk)

end ServerEnhanced

/-! ## Claim theorems -/

/-- C7 counterexample: the length parser's number pattern carries no sign,
so the string with a leading minus parses to the positive value 3.5, not
to -3.5 as claimed; the legacy parser behaves identically. -/
theorem C7_parseLength_counterexample :
    ServerEnhanced.parse_pixel_value "-3.5px" = 7 / 2 ∧
    ServerEnhanced.parse_pixel_value "-3.5px" ≠ -(7 / 2) ∧
    Server.parse_css_value "-3.5px" = 7 / 2 := by
  refine ⟨by decide, by decide, by decide⟩

/-- C7 amended: `parseLength` extracts the first unsigned decimal number:
for every natural number rendered in decimal, the px and em forms return
that number; the empty string, `auto` and `none` return 0; a leading minus
sign is ignored, so the -3.5px form returns 3.5 (as does 3.5px); and the
legacy `parse_css_value` agrees with `parse_pixel_value` on every
string. -/
theorem C7_parseLength_amended :
    (∀ n : Nat,
      ServerEnhanced.parse_pixel_value (String.mk (renderNat n ++ ['p', 'x'])) = n) ∧
    (∀ n : Nat,
      ServerEnhanced.parse_pixel_value (String.mk (renderNat n ++ ['e', 'm'])) = n) ∧
    ServerEnhanced.parse_pixel_value "" = 0 ∧
    ServerEnhanced.parse_pixel_value "auto" = 0 ∧
    ServerEnhanced.parse_pixel_value "none" = 0 ∧
    ServerEnhanced.parse_pixel_value "-3.5px" = 7 / 2 ∧
    ServerEnhanced.parse_pixel_value "3.5px" = 7 / 2 ∧
    (∀ s : String, Server.parse_css_value s = ServerEnhanced.parse_pixel_value s) := by
  refine ⟨?_, ?_, by decide, by decide, by decide, by decide, by decide, fun s => rfl⟩
  · intro n
    apply parse_pixel_value_render
    · intro c hc
      simp only [List.head?] at hc
      injection hc with hc
      subst hc
      decide
    · decide
    · intro h
      have hauto : "auto".data = ['a', 'u', 't', 'o'] := rfl
      rw [hauto] at h
      have := congrArg List.reverse h
      rw [List.reverse_append] at this
      simp at this
  · intro n
    apply parse_pixel_value_render
    · intro c hc
      simp only [List.head?] at hc
      injection hc with hc
      subst hc
      decide
    · decide
    · intro h
      have hauto : "auto".data = ['a', 'u', 't', 'o'] := rfl
      rw [hauto] at h
      have := congrArg List.reverse h
      rw [List.reverse_append] at this
      simp at this

/-- C8 counterexample: the colour parser does not clamp the grouped rgb
channels to 255, so an rgb call with a channel literal above 255 yields a
channel value strictly greater than 1, refuting the claim that every
returned channel lies in the unit interval. -/
theorem C8_parseColor_counterexample :
    ServerEnhanced.parse_color "rgb(999, 0, 0)" =
      some ⟨(999 : ℚ) / 255, 0, 0⟩ ∧
    1 < (999 : ℚ) / 255 := by
  constructor
  · decide
  · norm_num

/-- C8 amended: every successful parse returns channels of the form k/255
for natural numbers k, hence nonnegative, but not necessarily at most 1
(an rgb channel literal above 255 exceeds it); the claimed concrete
examples all hold: the grouped rgba example, the hex example, and the
null results for the fully transparent rgba literal, for transparent, and
for the empty string. -/
theorem C8_parseColor_amended :
    (∀ (s : String) (c : ServerEnhanced.RGBColor),
      ServerEnhanced.parse_color s = some c →
      (∃ r g b : ℕ, c = ⟨(r : ℚ) / 255, (g : ℚ) / 255, (b : ℚ) / 255⟩) ∧
        0 ≤ c.r ∧ 0 ≤ c.g ∧ 0 ≤ c.b) ∧
    ServerEnhanced.parse_color "rgba(10, 20, 30, 0.4)" =
      some ⟨(10 : ℚ) / 255, (20 : ℚ) / 255, (30 : ℚ) / 255⟩ ∧
    ServerEnhanced.parse_color "#ff0000" = some ⟨1, 0, 0⟩ ∧
    ServerEnhanced.parse_color "rgba(0, 0, 0, 0)" = none ∧
    ServerEnhanced.parse_color "transparent" = none ∧
    ServerEnhanced.parse_color "" = none := by
  refine ⟨?_, by decide, by decide, by decide, by decide, by decide⟩
  intro s c h
  unfold ServerEnhanced.parse_color at h
  split_ifs at h
  cases hrgb : ServerEnhanced.rgbMatch s.data with
  | some t =>
    rw [hrgb] at h
    obtain ⟨r, g, b⟩ := t
    injection h with h
    refine ⟨⟨r, g, b, h.symm⟩, ?_, ?_, ?_⟩ <;> (rw [← h]; positivity)
  | none =>
    rw [hrgb] at h
    cases hhex : ServerEnhanced.hexMatch s.data with
    | some t =>
      rw [hhex] at h
      obtain ⟨r, g, b⟩ := t
      injection h with h
      refine ⟨⟨r, g, b, h.symm⟩, ?_, ?_, ?_⟩ <;> (rw [← h]; positivity)
    | none =>
      rw [hhex] at h
      exact absurd h (by simp)

/-- C8 witness: the amended structural statement applied at the hex red
example. -/
theorem C8_parseColor_witness :
    (∃ r g b : ℕ,
      (⟨1, 0, 0⟩ : ServerEnhanced.RGBColor) =
        ⟨(r : ℚ) / 255, (g : ℚ) / 255, (b : ℚ) / 255⟩) ∧
    0 ≤ (⟨1, 0, 0⟩ : ServerEnhanced.RGBColor).r ∧
    0 ≤ (⟨1, 0, 0⟩ : ServerEnhanced.RGBColor).g ∧
    0 ≤ (⟨1, 0, 0⟩ : ServerEnhanced.RGBColor).b :=
  C8_parseColor_amended.1 "#ff0000" ⟨1, 0, 0⟩ (by decide)

/-- C2 counterexample: the rectangle mapper applies the Python float
constructor to the raw opacity string with no handler, so a style bag
whose opacity is not a float literal makes the mapper raise (modelled as
`none`) instead of returning a rectangle — the mapper is not total. -/
theorem C2_mapper_counterexample :
    ServerEnhanced.create_figma_rectangle_section 0 false
      [("opacity", "garbage")] ⟨0, 0, 100, 40⟩ "div" = none := by decide

/-- C2 amended: the rectangle mapper returns a rectangle for every style
bag whose opacity value converts as a float (in particular whenever the
opacity key is absent), and on such bags a boxShadow value of garbage
yields an empty effects list rather than an error; only a non-float
opacity string raises. -/
theorem C2_mapper_amended :
    ∀ (dep : Nat) (hc : Bool) (visual : List (String × String))
      (pos : ServerEnhanced.PositionRec) (tag : String),
    (ServerEnhanced.opacityValue visual).isSome = true →
    ∃ rect, ServerEnhanced.create_figma_rectangle_section dep hc visual pos tag = some rect ∧
      (assocGetD visual "boxShadow" "none" = "garbage" → rect.effects = []) := by
  intro dep hc visual pos tag hop
  obtain ⟨op, hopEq⟩ := Option.isSome_iff_exists.mp hop
  refine ⟨ServerEnhanced.mkFigmaRect dep hc visual pos tag op, ?_, ?_⟩
  · unfold ServerEnhanced.create_figma_rectangle_section
    rw [hopEq]
  · intro hbs
    show ServerEnhanced.rectEffects visual = []
    cases hget : assocGet visual "boxShadow" with
    | none =>
      exfalso
      rw [assocGetD, hget] at hbs
      exact absurd hbs (by decide)
    | some bs =>
      have hbs' : bs = "garbage" := by
        rw [assocGetD, hget] at hbs
        exact hbs
      subst hbs'
      simp only [ServerEnhanced.rectEffects, hget]
      rw [if_pos (by decide : ("garbage" : String) ≠ "" ∧ ("garbage" : String) ≠ "none")]
      rw [show ServerEnhanced.map_box_shadow_to_figma "garbage" = none from by decide]

/-- C2 witness: the amended statement applied at a style bag with a
garbage boxShadow and no opacity key. -/
theorem C2_mapper_witness :
    ∃ rect, ServerEnhanced.create_figma_rectangle_section 0 false
      [("boxShadow", "garbage")] ⟨0, 0, 100, 40⟩ "div" = some rect ∧
      (assocGetD [("boxShadow", "garbage")] "boxShadow" "none" = "garbage" →
        rect.effects = []) :=
  C2_mapper_amended 0 false [("boxShadow", "garbage")] ⟨0, 0, 100, 40⟩ "div" (by decide)

set_option maxRecDepth 100000 in
/-- C1 counterexample: the budget guard of the walker is a strict
comparison checked before appending, so a body with 40 qualifying empty
div children (41 qualifying nodes in all) yields 31 records under the
hardcoded budget 30 — one more than the budget, not exactly the budget. -/
theorem C1_budget_counterexample :
    (ServerEnhanced.extractHtmlElementsRun 1440
      (.elem "body" [] (List.replicate 40 (.elem "div" [] [])))).length = 31 ∧
    (ServerEnhanced.extractHtmlElementsRun 1440
      (.elem "body" [] (List.replicate 40 (.elem "div" [] [])))).length ≠ 30 := by
  constructor
  · decide
  · decide

set_option maxRecDepth 100000 in
/-- C1 amended: once the record count strictly exceeds the element budget,
every further walker call — on any node and on any child list, anywhere in
the tree — returns its accumulator unchanged, so the traversal is a true
global stop; with the hardcoded budget 30, the 40-div document yields
exactly 31 records (budget plus one, because the guard only fires strictly
above the budget). -/
theorem C1_budget_amended :
    (∀ (maxDepth maxElements vwWidth : Nat) (node : HtmlNode)
      (elements : List ServerEnhanced.ElementRecord) (depth : Nat),
      elements.length > maxElements →
      ServerEnhanced.extract_html_elements maxDepth maxElements vwWidth node elements depth =
        elements) ∧
    (∀ (maxDepth maxElements vwWidth : Nat) (children : List HtmlNode)
      (elements : List ServerEnhanced.ElementRecord) (depth : Nat),
      elements.length > maxElements →
      ServerEnhanced.extract_children maxDepth maxElements vwWidth children elements depth =
        elements) ∧
    (ServerEnhanced.extractHtmlElementsRun 1440
      (.elem "body" [] (List.replicate 40 (.elem "div" [] [])))).length = 31 :=
  ⟨ServerEnhanced.extract_html_elements_stop, ServerEnhanced.extract_children_stop, by decide⟩

/-- C1 witness: the global-stop statement applied to a concrete call with
31 already-collected records, which the walker returns unchanged. -/
theorem C1_budget_witness :
    ServerEnhanced.extract_html_elements 8 30 1440 (.elem "div" [] [])
      (List.replicate 31 (ServerEnhanced.mkElementRecord "div" [] [] "" 0 0 1440)) 0 =
      List.replicate 31 (ServerEnhanced.mkElementRecord "div" [] [] "" 0 0 1440) :=
  C1_budget_amended.1 8 30 1440 (.elem "div" [] [])
    (List.replicate 31 (ServerEnhanced.mkElementRecord "div" [] [] "" 0 0 1440)) 0
    (by simp)

set_option maxRecDepth 100000 in
/-- C5 counterexample: the static walker has no display or visibility
check, so a div with inline display none is extracted as a record (whose
own style bag even records display none); the refuted claim says no
record may appear for such an element. -/
theorem C5_displayNone_counterexample :
    (ServerEnhanced.extractHtmlElementsRun 1440
      (.elem "body" [] [.elem "div" [("style", "display:none")] [.text "hi"]])).map
      (fun r => (r.tagName, assocGet r.visual "display")) =
      [("BODY", some "block"), ("DIV", some "none")] := by decide

/-- C5 amended: the static walker's inclusion decision never consults
display or visibility — only the browser-automation script filters hidden
elements — so in every admissible traversal state (depth and budget not
exceeded) a div with inline display none is appended as a record. -/
theorem C5_displayNone_amended :
    ∀ (elements : List ServerEnhanced.ElementRecord) (depth : Nat),
    depth ≤ 8 → elements.length ≤ 30 →
    ServerEnhanced.extract_html_elements 8 30 1440
      (.elem "div" [("style", "display:none")] [.text "hi"]) elements depth =
    elements ++ [ServerEnhanced.mkElementRecord "div" [("style", "display:none")]
      [.text "hi"] "hi" elements.length depth 1440] := by
  intro els depth h8 h30
  have h1 : ¬(depth > 8 ∨ els.length > 30) := by omega
  rw [ServerEnhanced.extract_html_elements]
  rw [if_neg h1]
  rw [if_neg (by decide : ¬("div" ∈ ServerEnhanced.skip_tags))]
  have htext : ServerEnhanced.get_clean_text
      (.elem "div" [("style", "display:none")] [.text "hi"]) = "hi" := by decide
  simp only [htext]
  rw [if_neg (by decide)]
  rw [ServerEnhanced.extract_children]
  rw [ServerEnhanced.extract_html_elements]
  rw [ServerEnhanced.extract_children]
  rw [ite_self]

/-- C5 witness: the amended statement applied to the empty accumulator at
depth zero. -/
theorem C5_displayNone_witness :
    ServerEnhanced.extract_html_elements 8 30 1440
      (.elem "div" [("style", "display:none")] [.text "hi"]) [] 0 =
    [] ++ [ServerEnhanced.mkElementRecord "div" [("style", "display:none")]
      [.text "hi"] "hi" (List.length ([] : List ServerEnhanced.ElementRecord)) 0 1440] :=
  C5_displayNone_amended [] 0 (by decide) (by decide)

set_option maxRecDepth 100000 in
/-- C6 counterexample: an empty div is a structural tag, so the walker's
empty-element filter does not apply to it and a record is emitted,
refuting the claim that an empty childless imageless div is excluded. -/
theorem C6_emptyStructural_counterexample :
    (ServerEnhanced.extractHtmlElementsRun 1440
      (.elem "body" [] [.elem "div" [] []])).map (fun r => r.tagName) =
    ["BODY", "DIV"] := by decide

/-- C6 amended: the empty-element filter only excludes tags outside the
structural allow-list: in every admissible traversal state, an empty
childless element with a non-structural, non-skip tag is dropped, while
an empty div (structural) is still appended as a record. -/
theorem C6_emptyStructural_amended :
    ∀ (name : String) (elements : List ServerEnhanced.ElementRecord) (depth : Nat),
    depth ≤ 8 → elements.length ≤ 30 →
    name ∉ ServerEnhanced.skip_tags → name ∉ ServerEnhanced.structural_tags →
    (ServerEnhanced.extract_html_elements 8 30 1440 (.elem name [] []) elements depth =
      elements) ∧
    (ServerEnhanced.extract_html_elements 8 30 1440 (.elem "div" [] []) elements depth =
      elements ++ [ServerEnhanced.mkElementRecord "div" [] [] "" elements.length depth 1440]) := by
  intro name els depth h8 h30 hskip hstruct
  have h1 : ¬(depth > 8 ∨ els.length > 30) := by omega
  constructor
  · rw [ServerEnhanced.extract_html_elements]
    rw [if_neg h1]
    rw [if_neg hskip]
    have htext : ServerEnhanced.get_clean_text (.elem name [] []) = "" := by
      unfold ServerEnhanced.get_clean_text
      simp [getTextStrip, allStrings, allStringsList, pyTake]
    simp only [htext]
    rw [if_pos]
    exact ⟨by trivial, hstruct, by trivial, by trivial⟩
  · rw [ServerEnhanced.extract_html_elements]
    rw [if_neg h1]
    rw [if_neg (by decide : ¬("div" ∈ ServerEnhanced.skip_tags))]
    have htext : ServerEnhanced.get_clean_text (.elem "div" [] []) = "" := by decide
    simp only [htext]
    rw [if_neg (by decide)]
    rw [ServerEnhanced.extract_children]

/-- C6 witness: the amended statement applied at the span tag with the
empty accumulator at depth zero. -/
theorem C6_emptyStructural_witness :
    (ServerEnhanced.extract_html_elements 8 30 1440 (.elem "span" [] []) [] 0 =
      []) ∧
    (ServerEnhanced.extract_html_elements 8 30 1440 (.elem "div" [] []) [] 0 =
      [] ++ [ServerEnhanced.mkElementRecord "div" [] [] ""
        (List.length ([] : List ServerEnhanced.ElementRecord)) 0 1440]) :=
  C6_emptyStructural_amended "span" [] 0 (by decide) (by decide) (by decide) (by decide)

set_option maxRecDepth 100000 in
/-- C9 counterexample: the legacy traversal of two sibling paragraphs
yields three pairwise-distinct records whose identifier list contains the
same identifier twice (both paragraphs sit at depth 1 with the same tag),
refuting within-capture identifier uniqueness. -/
theorem C9_identifier_counterexample :
    ¬ ((Server.process_element
        (.elem "body" [] [.elem "p" [] [.text "a"], .elem "p" [] [.text "b"]]) [] 0).map
        (fun r => r.idStr)).Nodup ∧
    (Server.process_element
      (.elem "body" [] [.elem "p" [] [.text "a"], .elem "p" [] [.text "b"]]) [] 0).Nodup := by
  constructor
  · decide
  · decide

set_option maxRecDepth 100000 in
/-- C9 amended: the synthetic identifier is derived from depth and tag
name only — for every non-skipped element the extractor emits the
identifier given by the word element, the depth and the tag joined by
underscores, with no per-sibling ordinal — so records of same-tag elements
at the same depth collide, as the two sibling paragraphs show. -/
theorem C9_identifier_amended :
    (∀ (name : String) (attrs : List (String × String)) (children : List HtmlNode)
      (depth : Nat),
      pyLower name ∉ Server.skip_tags →
      ∃ rec, Server.extract_element_data name attrs children depth = some rec ∧
        rec.idStr = "element_" ++ toString depth ++ "_" ++ name) ∧
    (Server.process_element
      (.elem "body" [] [.elem "p" [] [.text "a"], .elem "p" [] [.text "b"]]) [] 0).map
      (fun r => r.idStr) = ["element_0_body", "element_1_p", "element_1_p"] := by
  constructor
  · intro name attrs children depth h
    unfold Server.extract_element_data
    rw [if_neg h]
    exact ⟨_, rfl, rfl⟩
  · decide

/-- C9 witness: the identifier formula applied to a paragraph tag at
depth one. -/
theorem C9_identifier_witness :
    ∃ rec, Server.extract_element_data "p" [] [] 1 = some rec ∧
      rec.idStr = "element_" ++ toString 1 ++ "_" ++ "p" :=
  C9_identifier_amended.1 "p" [] [] 1 (by decide)

/-- C4 counterexample: on the enhanced server — the app the entry point
serves — a request whose url does not parse to a scheme and network
location is not rejected: the endpoint attempts the capture and returns
200 with a best-effort payload, refuting the claimed 400 response and
the claim that the capture is not attempted. -/
theorem C4_invalidUrl_counterexample :
    (ServerEnhanced.capture_single (some (some "not a url"))
      (fun _ _ => .error "Invalid URL")).status = 200 ∧
    (ServerEnhanced.capture_single (some (some "not a url"))
      (fun _ _ => .error "Invalid URL")).attempted = true ∧
    validUrl "not a url" = false := by
  refine ⟨rfl, rfl, by decide⟩

/-- C4 amended: only the legacy server validates the url of the single
capture endpoint — there an invalid url yields 400 with the
invalid-format message and no fetch — while the enhanced server's
endpoint (the one the entry point serves) performs no url validation at
all: every request with a url key is attempted and answered 200. -/
theorem C4_invalidUrl_amended :
    (∀ (url : String) (fetch : String → Except String HtmlNode),
      validUrl url = false →
      Server.capture_website (some (some url)) fetch =
        ⟨400, some "Invalid URL format", false, []⟩) ∧
    (∀ (url : String) (fetch : String → ServerEnhanced.ViewportCfg → Except String HtmlNode),
      (ServerEnhanced.capture_single (some (some url)) fetch).status = 200 ∧
      (ServerEnhanced.capture_single (some (some url)) fetch).attempted = true) := by
  constructor
  · intro url fetch h
    simp only [Server.capture_website]
    rw [if_pos h]
  · intro url fetch
    exact ⟨rfl, rfl⟩

/-- C4 witness: the legacy validation statement applied to the concrete
invalid url. -/
theorem C4_invalidUrl_witness :
    Server.capture_website (some (some "not a url")) (fun _ => .error "nope") =
      ⟨400, some "Invalid URL format", false, []⟩ :=
  C4_invalidUrl_amended.1 "not a url" (fun _ => .error "nope") (by decide)

/-- C3 counterexample: with a valid url and one requested preset
viewport whose fetch fails, every requested viewport's capture has
failed, yet the endpoint answers 200 with a fallback payload in the
results map — not the claimed 500. -/
theorem C3_multiViewport_counterexample :
    ServerEnhanced.capture_responsive
      (some ⟨some "http://example.com", some [.preset "desktop"]⟩)
      (fun _ _ => .error "connection refused") =
    ⟨200, none,
      [("desktop", .fallback "http://example.com" ⟨1440, 900, "Desktop"⟩
        "Network error: connection refused")]⟩ := by decide

/-- C3 amended: a per-viewport fetch failure never aborts the loop or the
request — every acted-on entry contributes a payload to the results map
under every fetch oracle — and the endpoint returns 500 exactly when no
requested entry is acted on at all (unknown preset names only); fetch
failures are recorded as fallback payloads and therefore never produce
the 500. -/
theorem C3_multiViewport_amended :
    ∀ (fetch : String → ServerEnhanced.ViewportCfg → Except String HtmlNode)
      (url : String) (entries : List ServerEnhanced.ViewportEntry),
    validUrl url = true →
    entries.all ServerEnhanced.entryDeviceOk = true →
    ((ServerEnhanced.capture_responsive (some ⟨some url, some entries⟩) fetch).status = 500 ↔
      entries.all (fun e => !ServerEnhanced.validEntry e) = true) ∧
    (∀ e ∈ entries, ServerEnhanced.validEntry e = true →
      (assocGet
        (ServerEnhanced.capture_responsive (some ⟨some url, some entries⟩) fetch).results
        (ServerEnhanced.entryName e)).isSome = true) := by
  intro fetch url entries hurl hdev
  obtain ⟨res, hrun, hempty, hmem, _⟩ :=
    ServerEnhanced.runViewports_spec fetch url entries [] hdev
  have hresp : ServerEnhanced.capture_responsive (some ⟨some url, some entries⟩) fetch =
      ServerEnhanced.responsiveResult (ServerEnhanced.runViewports fetch url entries []) := by
    simp only [ServerEnhanced.capture_responsive]
    rw [if_neg (by rw [hurl]; simp)]
    rfl
  rw [hresp, hrun]
  cases res with
  | nil =>
    have hall : entries.all (fun e => !ServerEnhanced.validEntry e) = true :=
      (hempty.mp rfl).2
    rw [show ServerEnhanced.responsiveResult (.ok []) =
      ⟨500, some "Failed to capture any viewports", []⟩ from rfl]
    constructor
    · exact ⟨fun _ => hall, fun _ => rfl⟩
    · intro e he hv
      exfalso
      have hfe := List.all_eq_true.mp hall e he
      rw [hv] at hfe
      simp at hfe
  | cons r rs =>
    rw [show ServerEnhanced.responsiveResult (.ok (r :: rs)) = ⟨200, none, r :: rs⟩ from rfl]
    constructor
    · constructor
      · intro h500
        simp at h500
      · intro hall
        exact absurd (hempty.mpr ⟨rfl, hall⟩) (by simp)
    · intro e he hv
      exact hmem e he hv

/-- C3 witness: the amended statement applied to one desktop preset with
an always-failing fetch oracle. -/
theorem C3_multiViewport_witness :
    ((ServerEnhanced.capture_responsive
      (some ⟨some "http://example.com", some [.preset "desktop"]⟩)
      (fun _ _ => .error "refused")).status = 500 ↔
      ([ServerEnhanced.ViewportEntry.preset "desktop"].all
        (fun e => !ServerEnhanced.validEntry e)) = true) ∧
    (∀ e ∈ [ServerEnhanced.ViewportEntry.preset "desktop"],
      ServerEnhanced.validEntry e = true →
      (assocGet
        (ServerEnhanced.capture_responsive
          (some ⟨some "http://example.com", some [.preset "desktop"]⟩)
          (fun _ _ => .error "refused")).results
        (ServerEnhanced.entryName e)).isSome = true) :=
  C3_multiViewport_amended (fun _ _ => .error "refused") "http://example.com"
    [.preset "desktop"] (by decide) (by decide)

namespace ServerEnhanced

theorem runViewports_all_unknown (fetch : String → ViewportCfg → Except String HtmlNode)
    (url : String) :
    ∀ (names : List String), (∀ s ∈ names, assocGet VIEWPORTS s = none) →
    runViewports fetch url (names.map .preset) [] = .ok [] := by
  intro names
  induction names with
  | nil => intro _; rfl
  | cons n rest ih =>
    intro h
    have hn := h n (List.mem_cons_self n rest)
    simp only [List.map_cons, runViewports, hn]
    exact ih (fun s hs => h s (List.mem_cons_of_mem n hs))

end ServerEnhanced

/-- C10 confirmed: a preset-name viewport entry not among desktop, tablet
and mobile is skipped silently — removing it from the requested list
changes nothing about the loop's outcome, for any surrounding entries and
accumulated results — and when every requested entry is such an unknown
name the endpoint returns 500 with the failed-all-viewports message and
an empty results map. -/
theorem C10_unknownViewports_confirmed :
    (∀ (names : List String) (url : String)
      (fetch : String → ServerEnhanced.ViewportCfg → Except String HtmlNode),
      validUrl url = true →
      (∀ s ∈ names, assocGet ServerEnhanced.VIEWPORTS s = none) →
      ServerEnhanced.capture_responsive
        (some ⟨some url, some (names.map .preset)⟩) fetch =
        ⟨500, some "Failed to capture any viewports", []⟩) ∧
    (∀ (fetch : String → ServerEnhanced.ViewportCfg → Except String HtmlNode)
      (url : String) (pre post : List ServerEnhanced.ViewportEntry)
      (results : List (String × ServerEnhanced.CapturePayload)) (s : String),
      assocGet ServerEnhanced.VIEWPORTS s = none →
      ServerEnhanced.runViewports fetch url (pre ++ .preset s :: post) results =
        ServerEnhanced.runViewports fetch url (pre ++ post) results) := by
  constructor
  · intro names url fetch hurl hnames
    have hrun := ServerEnhanced.runViewports_all_unknown fetch url names hnames
    have hresp : ServerEnhanced.capture_responsive
        (some ⟨some url, some (names.map .preset)⟩) fetch =
        ServerEnhanced.responsiveResult
          (ServerEnhanced.runViewports fetch url (names.map .preset) []) := by
      simp only [ServerEnhanced.capture_responsive]
      rw [if_neg (by rw [hurl]; simp)]
      rfl
    rw [hresp, hrun]
    rfl
  · intro fetch url pre post results s hs
    induction pre generalizing results with
    | nil =>
      simp only [List.nil_append, ServerEnhanced.runViewports, hs]
    | cons p pre ih =>
      cases p with
      | preset nm =>
        cases hv : assocGet ServerEnhanced.VIEWPORTS nm with
        | none =>
          simp only [List.cons_append, ServerEnhanced.runViewports, hv]
          exact ih results
        | some cfg =>
          simp only [List.cons_append, ServerEnhanced.runViewports, hv]
          exact ih _
      | explicit w hgt dev =>
        cases dev with
        | none =>
          simp only [List.cons_append, ServerEnhanced.runViewports]
        | some d =>
          simp only [List.cons_append, ServerEnhanced.runViewports]
          exact ih _

/-- C10 witness: the confirmed statement applied to a single unknown
preset name with a successful fetch oracle. -/
theorem C10_unknownViewports_witness :
    ServerEnhanced.capture_responsive
      (some ⟨some "http://example.com", some (["ultrawide"].map .preset)⟩)
      (fun _ _ => .ok (.elem "html" [] [])) =
      ⟨500, some "Failed to capture any viewports", []⟩ :=
  C10_unknownViewports_confirmed.1 ["ultrawide"] "http://example.com"
    (fun _ _ => .ok (.elem "html" [] [])) (by decide) (by decide)
